import Mathlib

/-
Verification of the RSVP/capacity core of the Pulse event platform.

The embedding below is a shallow model of:
  - the `events` and `event_rsvps` tables (src/unnamed/part_005, schema),
  - the storage layer `DatabaseStorage` (src/unnamed/part_004):
    `getEvent`, `getUserRsvp`, `createRsvp`, `updateRsvp`, `getEventRsvpCount`,
  - the route handler `POST /api/events/:id/rsvp` (src/server/routes.ts,
    lines 369-456).

Ids are strings (varchar columns).  Fields of the tables that no modelled
operation reads (title, timestamps, creator, visibility, tags, location)
are omitted.  Side effects on external collaborators (analytics rows,
e-mail dispatch) are out of the model: the spec treats them as
fire-and-forget collaborators whose failures never affect RSVP state.
-/

namespace Pulse

/-- RSVP status column `status_enum`: values `yes`, `waitlist`, `cancelled`. -/
inductive RsvpStatus where
  | yes
  | waitlist
  | cancelled
deriving DecidableEq, Repr

/-- Event status column `status_enum`: values `active`, `cancelled`, `hidden`. -/
inductive EventStatus where
  | active
  | cancelled
  | hidden
deriving DecidableEq, Repr

/-- A row of the `events` table (the fields the RSVP core reads).
`capacity` is a nullable `integer` column, hence `Option Int`. -/
structure Event where
  id : String
  capacity : Option Int
  statusEnum : EventStatus
deriving DecidableEq, Repr

/-- A row of the `event_rsvps` table (the fields the RSVP core reads).
The table has no unique constraint on (eventId, userId); uniqueness is an
invariant maintained by the operations, not by the schema. -/
structure Rsvp where
  eventId : String
  userId : String
  statusEnum : RsvpStatus
deriving DecidableEq, Repr

/-- The database state visible to the RSVP core. -/
structure DB where
  events : List Event
  rsvps : List Rsvp
deriving DecidableEq, Repr

/-- The WHERE clause `eq(eventRsvps.eventId, eventId), eq(eventRsvps.userId, userId)`
shared by `updateRsvp` and `getUserRsvp`. -/
def keyMatch (eventId userId : String) (r : Rsvp) : Bool :=
  r.eventId == eventId && r.userId == userId

/-- Storage method `DatabaseStorage.getEvent`: `select ... where eq(events.id, id) limit 1`. -/
def getEvent (db : DB) (id : String) : Option Event :=
  db.events.find? (fun e => e.id == id)

/-- Storage method `DatabaseStorage.getUserRsvp`: `select ... where eventId = e and userId = u limit 1`. -/
def getUserRsvp (db : DB) (eventId userId : String) : Option Rsvp :=
  db.rsvps.find? (keyMatch eventId userId)

/-- The row transformation of `DatabaseStorage.updateRsvp`: rows matching the
WHERE clause get the new status, others are untouched. -/
def setStatusIf (eventId userId : String) (status : RsvpStatus) (r : Rsvp) : Rsvp :=
  if keyMatch eventId userId r then { r with statusEnum := status } else r

/-- Storage method `DatabaseStorage.updateRsvp`: `update event_rsvps set status_enum = status
where eventId = e and userId = u` (an UPDATE hits every matching row). -/
def updateRsvp (db : DB) (eventId userId : String) (status : RsvpStatus) : DB :=
  { db with rsvps := db.rsvps.map (setStatusIf eventId userId status) }

/-- Storage method `DatabaseStorage.createRsvp`: `insert into event_rsvps values (rsvp)`. -/
def createRsvp (db : DB) (r : Rsvp) : DB :=
  { db with rsvps := db.rsvps ++ [r] }

/-- Predicate for the rows counted by the `confirmed` component of
`getEventRsvpCount`: eventId matches and the status is `yes`. -/
def isYesFor (eventId : String) (r : Rsvp) : Bool :=
  r.eventId == eventId && r.statusEnum == RsvpStatus.yes

def isWaitlistFor (eventId : String) (r : Rsvp) : Bool :=
  r.eventId == eventId && r.statusEnum == RsvpStatus.waitlist

def confirmedCount (rs : List Rsvp) (eventId : String) : Nat :=
  rs.countP (isYesFor eventId)

def waitlistCount (rs : List Rsvp) (eventId : String) : Nat :=
  rs.countP (isWaitlistFor eventId)

/-- The counts record returned by `DatabaseStorage.getEventRsvpCount`. -/
structure RsvpCounts where
  confirmed : Nat
  waitlist : Nat
deriving DecidableEq, Repr

/-- Storage method `DatabaseStorage.getEventRsvpCount`: group rows of the event by status and
count; rows with status `cancelled` appear in neither field. -/
def getEventRsvpCount (db : DB) (eventId : String) : RsvpCounts :=
  { confirmed := confirmedCount db.rsvps eventId
    waitlist := waitlistCount db.rsvps eventId }

/-- The capacity guard of the handler (routes.ts line 407):
`event.capacity && rsvpCounts.confirmed >= event.capacity ? "waitlist" : "yes"`.
In JavaScript both `null` and `0` are falsy, so a null OR zero capacity
short-circuits to `"yes"`; a nonzero capacity compares the confirmed count. -/
def finalStatus (capacity : Option Int) (confirmed : Nat) : RsvpStatus :=
  match capacity with
  | none => RsvpStatus.yes
  | some c => if c ≠ 0 ∧ c ≤ (confirmed : Int) then RsvpStatus.waitlist else RsvpStatus.yes

/-- The JSON response of the handler: HTTP code, optional `status` field,
`message` field. -/
structure Response where
  code : Nat
  rsvpStatus : Option RsvpStatus
  message : String
deriving DecidableEq, Repr

/-- The read phase of the join branch (routes.ts lines 400-410): load the
event (404 check by the caller), read the confirmed count, probe for an
existing RSVP row.  Each of these is an awaited query, so a concurrent
request may interleave between this snapshot and the write below. -/
structure JoinSnapshot where
  ev : Event
  confirmed : Nat
  hasExisting : Bool
deriving DecidableEq, Repr

def joinRead (db : DB) (eventId userId : String) : Option JoinSnapshot :=
  match getEvent db eventId with
  | none => none
  | some ev =>
      some { ev := ev
             confirmed := (getEventRsvpCount db eventId).confirmed
             hasExisting := (getUserRsvp db eventId userId).isSome }

/-- The write phase of the join branch (routes.ts lines 406-419 and 449):
compute `finalStatus` from the snapshot, update the existing row or insert a
new one, and answer `{ status, message }`. -/
def joinWrite (db : DB) (eventId userId : String) (s : JoinSnapshot) : Response × DB :=
  let fs := finalStatus s.ev.capacity s.confirmed
  let db' :=
    if s.hasExisting then updateRsvp db eventId userId fs
    else createRsvp db { eventId := eventId, userId := userId, statusEnum := fs }
  ({ code := 200
     rsvpStatus := some fs
     message := if fs = RsvpStatus.yes then "RSVP confirmed" else "Added to waitlist" },
   db')

/-- The join branch of `POST /api/events/:id/rsvp` with body status `"yes"`
(routes.ts lines 400-449), run without interleaving: read phase immediately
followed by the write phase. -/
def requestJoin (db : DB) (eventId userId : String) : Response × DB :=
  match joinRead db eventId userId with
  | none => ({ code := 404, rsvpStatus := none, message := "Event not found" }, db)
  | some s => joinWrite db eventId userId s

/-- The cancel branch of `POST /api/events/:id/rsvp` with body status `"no"`
(routes.ts lines 375-398): if a row exists, set it to `cancelled`; either way
answer 200 `"RSVP cancelled"`.  No promotion of waitlisted users happens. -/
def requestLeave (db : DB) (eventId userId : String) : Response × DB :=
  let db' :=
    if (getUserRsvp db eventId userId).isSome
    then updateRsvp db eventId userId RsvpStatus.cancelled
    else db
  ({ code := 200, rsvpStatus := none, message := "RSVP cancelled" }, db')

/-- The request body `status` field, validated by `z.enum(["yes", "no"])`. -/
inductive ReqStatus where
  | yes
  | no
deriving DecidableEq, Repr

/-- The whole `POST /api/events/:id/rsvp` handler after body validation. -/
def rsvpHandler (db : DB) (eventId userId : String) : ReqStatus → Response × DB
  | ReqStatus.yes => requestJoin db eventId userId
  | ReqStatus.no => requestLeave db eventId userId

/-- One completed RSVP request, for reasoning about sequences of requests. -/
structure Op where
  eventId : String
  userId : String
  req : ReqStatus
deriving DecidableEq, Repr

/-- Run a finite sequence of completed (sequentially executed) requests. -/
def runOps (db : DB) (ops : List Op) : DB :=
  ops.foldl (fun d op => (rsvpHandler d op.eventId op.userId op.req).2) db

/-- Two rows collide when they agree on (eventId, userId). -/
def sameKey (a b : Rsvp) : Bool :=
  a.eventId == b.eventId && a.userId == b.userId

/-- The data-model invariant of the spec: at most one RSVP row per
(event, user) pair. -/
def uniqKeys : List Rsvp → Bool
  | [] => true
  | r :: rs => rs.all (fun r2 => !sameKey r2 r) && uniqKeys rs

/-- One legal interleaving of several concurrent join requests for the same
event: each request runs its read phase (event load, count query, row probe)
before any request runs its write phase.  Every individual storage query is
still atomic; only the check-then-act sequence of the handler interleaves. -/
def allReadsThenWrites (db : DB) (eventId : String) (userIds : List String) : DB :=
  let snaps := userIds.map (fun u => (u, joinRead db eventId u))
  snaps.foldl
    (fun d p =>
      match p.2 with
      | none => d
      | some s => (joinWrite d eventId p.1 s).2)
    db

/-! Concrete states used to instantiate the theorems below. -/

/-- An active event with capacity 1. -/
def evCap1 : Event := { id := "e", capacity := some 1, statusEnum := EventStatus.active }

/-- The capacity-1 event with no RSVPs yet. -/
def dbCap1 : DB := { events := [evCap1], rsvps := [] }

/-- User a holds a confirmed RSVP for the capacity-1 event. -/
def rowYesA : Rsvp := { eventId := "e", userId := "a", statusEnum := RsvpStatus.yes }

/-- The capacity-1 event at full capacity: user a is confirmed. -/
def dbFullA : DB := { events := [evCap1], rsvps := [rowYesA] }

/-- User b is waitlisted on the capacity-1 event. -/
def rowWaitB : Rsvp := { eventId := "e", userId := "b", statusEnum := RsvpStatus.waitlist }

/-- Full capacity-1 event with one confirmed and one waitlisted user. -/
def dbFullAB : DB := { events := [evCap1], rsvps := [rowYesA, rowWaitB] }

/-- A cancelled event (status column `cancelled`, unlimited capacity). -/
def evCancelled : Event := { id := "e", capacity := none, statusEnum := EventStatus.cancelled }

def dbCancelled : DB := { events := [evCancelled], rsvps := [] }

/-- An active event whose capacity column holds 0. -/
def evZero : Event := { id := "e", capacity := some 0, statusEnum := EventStatus.active }

/-- The capacity-0 event already has two confirmed RSVPs. -/
def dbZero : DB :=
  { events := [evZero]
    rsvps := [{ eventId := "e", userId := "x", statusEnum := RsvpStatus.yes },
              { eventId := "e", userId := "y", statusEnum := RsvpStatus.yes }] }

/-- An active event with capacity 2 and one confirmed RSVP. -/
def evCap2 : Event := { id := "e2", capacity := some 2, statusEnum := EventStatus.active }

def dbCap2 : DB :=
  { events := [evCap2]
    rsvps := [{ eventId := "e2", userId := "a", statusEnum := RsvpStatus.yes }] }

/-- A sequence of joins and one leave against the capacity-2 event. -/
def opsW2 : List Op :=
  [{ eventId := "e2", userId := "b", req := ReqStatus.yes },
   { eventId := "e2", userId := "c", req := ReqStatus.yes },
   { eventId := "e2", userId := "d", req := ReqStatus.yes },
   { eventId := "e2", userId := "a", req := ReqStatus.no },
   { eventId := "e2", userId := "d", req := ReqStatus.yes }]

/-- Ten distinct users racing to join. -/
def tenUsers : List String :=
  ["u0", "u1", "u2", "u3", "u4", "u5", "u6", "u7", "u8", "u9"]

/-- The same ten joins run one after another. -/
def seqTenJoins : List Op :=
  tenUsers.map (fun u => { eventId := "e", userId := u, req := ReqStatus.yes })

/-! Basic facts about the row transformation of `updateRsvp`. -/

theorem setStatusIf_eventId (e u : String) (s : RsvpStatus) (r : Rsvp) :
    (setStatusIf e u s r).eventId = r.eventId := by
  unfold setStatusIf
  split <;> rfl

theorem setStatusIf_userId (e u : String) (s : RsvpStatus) (r : Rsvp) :
    (setStatusIf e u s r).userId = r.userId := by
  unfold setStatusIf
  split <;> rfl

theorem keyMatch_setStatusIf (e' u' e u : String) (s : RsvpStatus) (r : Rsvp) :
    keyMatch e' u' (setStatusIf e u s r) = keyMatch e' u' r := by
  unfold keyMatch
  rw [setStatusIf_eventId, setStatusIf_userId]

theorem sameKey_setStatusIf_left (e u : String) (s : RsvpStatus) (a b : Rsvp) :
    sameKey (setStatusIf e u s a) b = sameKey a b := by
  unfold sameKey
  rw [setStatusIf_eventId, setStatusIf_userId]

theorem sameKey_setStatusIf_right (e u : String) (s : RsvpStatus) (a b : Rsvp) :
    sameKey a (setStatusIf e u s b) = sameKey a b := by
  unfold sameKey
  rw [setStatusIf_eventId, setStatusIf_userId]

theorem sameKey_comm (a b : Rsvp) : sameKey a b = sameKey b a := by
  unfold sameKey
  rw [Bool.eq_iff_iff]
  simp only [Bool.and_eq_true, beq_iff_eq]
  constructor <;> rintro ⟨h1, h2⟩ <;> exact ⟨h1.symm, h2.symm⟩

theorem keyMatch_fields (e u : String) (r : Rsvp) (h : keyMatch e u r = true) :
    r.eventId = e ∧ r.userId = u := by
  simpa only [keyMatch, Bool.and_eq_true, beq_iff_eq] using h

theorem setStatusIf_of_match (e u : String) (s : RsvpStatus) (r : Rsvp)
    (h : keyMatch e u r = true) :
    setStatusIf e u s r = { r with statusEnum := s } := by
  unfold setStatusIf
  rw [h]
  rfl

theorem setStatusIf_of_no_match (e u : String) (s : RsvpStatus) (r : Rsvp)
    (h : keyMatch e u r = false) :
    setStatusIf e u s r = r := by
  unfold setStatusIf
  rw [h]
  rfl

/-! Counting lemmas: how an UPDATE or INSERT moves the confirmed count. -/

theorem countP_yes_map_set_le (rs : List Rsvp) (e u e' : String) (s : RsvpStatus)
    (hs : s ≠ RsvpStatus.yes) :
    (rs.map (setStatusIf e u s)).countP (isYesFor e') ≤ rs.countP (isYesFor e') := by
  rw [List.countP_map]
  apply List.countP_mono_left
  intro r _ h
  by_cases hk : keyMatch e u r = true
  · exfalso
    rw [Function.comp_apply, setStatusIf_of_match e u s r hk] at h
    simp only [isYesFor, Bool.and_eq_true, beq_iff_eq] at h
    exact hs h.2
  · rwa [Function.comp_apply,
      setStatusIf_of_no_match e u s r (Bool.eq_false_iff.mpr hk)] at h

theorem countP_yes_map_set_yes_le (rs : List Rsvp) (e u e' : String) :
    (rs.map (setStatusIf e u RsvpStatus.yes)).countP (isYesFor e') ≤
      rs.countP (isYesFor e') + rs.countP (keyMatch e u) := by
  induction rs with
  | nil => simp
  | cons r rs ih =>
    simp only [List.map_cons, List.countP_cons]
    by_cases hk : keyMatch e u r = true
    · have hkeq : (if keyMatch e u r = true then 1 else 0) = 1 := if_pos hk
      have h1 : (if isYesFor e' (setStatusIf e u RsvpStatus.yes r) = true then 1 else 0) ≤ 1 := by
        split <;> omega
      omega
    · rw [setStatusIf_of_no_match e u _ r (Bool.eq_false_iff.mpr hk)]
      have hkeq : (if keyMatch e u r = true then 1 else 0) = 0 := if_neg hk
      omega

theorem countP_keyMatch_le_one (rs : List Rsvp) (e u : String)
    (h : uniqKeys rs = true) : rs.countP (keyMatch e u) ≤ 1 := by
  induction rs with
  | nil => simp
  | cons r rs ih =>
    simp only [uniqKeys, Bool.and_eq_true] at h
    obtain ⟨hall, hrest⟩ := h
    simp only [List.countP_cons]
    by_cases hk : keyMatch e u r = true
    · have hzero : rs.countP (keyMatch e u) = 0 := by
        rw [List.countP_eq_zero]
        intro r2 hr2 hk2
        have hnot := List.all_eq_true.mp hall r2 hr2
        rw [Bool.not_eq_true'] at hnot
        obtain ⟨he1, hu1⟩ := keyMatch_fields e u r hk
        obtain ⟨he2, hu2⟩ := keyMatch_fields e u r2 hk2
        simp [sameKey, he1, hu1, he2, hu2] at hnot
      rw [hzero, if_pos hk]
    · rw [if_neg hk]
      have := ih hrest
      omega

theorem countP_append_single (p : Rsvp → Bool) (rs : List Rsvp) (x : Rsvp) :
    (rs ++ [x]).countP p = rs.countP p + if p x = true then 1 else 0 := by
  rw [List.countP_append]
  simp [List.countP_cons]

theorem countP_yes_map_set_other (rs : List Rsvp) (e u e' : String) (s : RsvpStatus)
    (hne : e ≠ e') :
    (rs.map (setStatusIf e u s)).countP (isYesFor e') = rs.countP (isYesFor e') := by
  rw [List.countP_map]
  apply List.countP_congr
  intro r _
  rw [Function.comp_apply]
  by_cases hk : keyMatch e u r = true
  · obtain ⟨he1, _⟩ := keyMatch_fields e u r hk
    rw [setStatusIf_of_match e u s r hk]
    simp only [isYesFor, Bool.and_eq_true, beq_iff_eq]
    constructor
    · rintro ⟨h, _⟩
      exact absurd (he1 ▸ h) hne
    · rintro ⟨h, _⟩
      exact absurd (he1 ▸ h) hne
  · rw [setStatusIf_of_no_match e u s r (Bool.eq_false_iff.mpr hk)]

/-! Locating rows after an UPDATE or INSERT. -/

theorem find?_map_set_self (rs : List Rsvp) (e u : String) (s : RsvpStatus) :
    (rs.map (setStatusIf e u s)).find? (keyMatch e u) =
      (rs.find? (keyMatch e u)).map (fun r => { r with statusEnum := s }) := by
  induction rs with
  | nil => rfl
  | cons r rs ih =>
    rw [List.map_cons]
    by_cases hk : keyMatch e u r = true
    · rw [List.find?_cons_of_pos rs hk,
        List.find?_cons_of_pos _ ((keyMatch_setStatusIf e u e u s r).trans hk),
        setStatusIf_of_match e u s r hk]
      rfl
    · rw [List.find?_cons_of_neg rs hk,
        List.find?_cons_of_neg _ (by rw [keyMatch_setStatusIf e u e u s r]; exact hk)]
      exact ih

theorem find?_map_set_frame (rs : List Rsvp) (e u e' v : String) (s : RsvpStatus)
    (hvu : v ≠ u) :
    (rs.map (setStatusIf e u s)).find? (keyMatch e' v) = rs.find? (keyMatch e' v) := by
  induction rs with
  | nil => rfl
  | cons r rs ih =>
    rw [List.map_cons]
    by_cases hm : keyMatch e' v r = true
    · rw [List.find?_cons_of_pos rs hm,
        List.find?_cons_of_pos _ ((keyMatch_setStatusIf e' v e u s r).trans hm)]
      obtain ⟨_, huv⟩ := keyMatch_fields e' v r hm
      have hnk : keyMatch e u r = false := by
        unfold keyMatch
        rw [huv, beq_eq_false_iff_ne.mpr hvu, Bool.and_false]
      rw [setStatusIf_of_no_match e u s r hnk]
    · rw [List.find?_cons_of_neg rs hm,
        List.find?_cons_of_neg _ (by rw [keyMatch_setStatusIf e' v e u s r]; exact hm)]
      exact ih

theorem find?_append_single_of_none (p : Rsvp → Bool) (rs : List Rsvp) (x : Rsvp)
    (h : rs.find? p = none) (hx : p x = true) :
    (rs ++ [x]).find? p = some x := by
  rw [List.find?_append, h, Option.none_or, List.find?_cons_of_pos _ hx]

/-- Stored status after the write step of the join branch: whichever of
`updateRsvp` and `createRsvp` ran, the row for (e, u) now holds `fs`. -/
theorem getUserRsvp_after_write (db : DB) (e u : String) (fs : RsvpStatus) :
    (getUserRsvp
      (if (getUserRsvp db e u).isSome then updateRsvp db e u fs
       else createRsvp db { eventId := e, userId := u, statusEnum := fs }) e u).map
        Rsvp.statusEnum = some fs := by
  cases hex : getUserRsvp db e u with
  | some r =>
    simp only [Option.isSome_some, if_pos]
    unfold getUserRsvp updateRsvp
    simp only []
    rw [find?_map_set_self]
    unfold getUserRsvp at hex
    rw [hex]
    rfl
  | none =>
    simp only [Option.isSome_none, Bool.false_eq_true, if_neg, not_false_iff]
    unfold getUserRsvp createRsvp
    simp only []
    rw [find?_append_single_of_none _ _ _ hex (by simp [keyMatch])]
    rfl

/-! Preservation of the one-row-per-(event, user) invariant. -/

theorem uniqKeys_map_set (rs : List Rsvp) (e u : String) (s : RsvpStatus) :
    uniqKeys (rs.map (setStatusIf e u s)) = uniqKeys rs := by
  induction rs with
  | nil => rfl
  | cons r rs ih =>
    rw [List.map_cons]
    show ((rs.map (setStatusIf e u s)).all
        (fun r2 => !sameKey r2 (setStatusIf e u s r)) && uniqKeys (rs.map (setStatusIf e u s)))
      = (rs.all (fun r2 => !sameKey r2 r) && uniqKeys rs)
    rw [ih, List.all_map]
    have hf : ((fun r2 => !sameKey r2 (setStatusIf e u s r)) ∘ setStatusIf e u s)
        = (fun r2 => !sameKey r2 r) := by
      funext r2
      simp only [Function.comp_apply]
      rw [sameKey_setStatusIf_left, sameKey_setStatusIf_right]
    rw [hf]

theorem uniqKeys_append_single (rs : List Rsvp) (x : Rsvp)
    (h : uniqKeys rs = true) (hx : ∀ r2 ∈ rs, sameKey r2 x = false) :
    uniqKeys (rs ++ [x]) = true := by
  induction rs with
  | nil =>
    simp [uniqKeys]
  | cons r rs ih =>
    rw [List.cons_append]
    show ((rs ++ [x]).all (fun r2 => !sameKey r2 r) && uniqKeys (rs ++ [x])) = true
    simp only [uniqKeys, Bool.and_eq_true] at h
    obtain ⟨hall, hrest⟩ := h
    rw [Bool.and_eq_true]
    constructor
    · rw [List.all_append, Bool.and_eq_true]
      refine ⟨hall, ?_⟩
      simp only [List.all_cons, List.all_nil, Bool.and_true, Bool.not_eq_true']
      rw [sameKey_comm]
      exact hx r (List.mem_cons_self r rs)
    · exact ih hrest (fun r2 h2 => hx r2 (List.mem_cons_of_mem r h2))

theorem keyMatch_false_of_none (db : DB) (e u : String)
    (h : getUserRsvp db e u = none) :
    ∀ r ∈ db.rsvps, keyMatch e u r = false := by
  intro r hr
  exact Bool.eq_false_iff.mpr (List.find?_eq_none.mp h r hr)

/-! The events table is never written by the RSVP handler. -/

theorem events_requestJoin (db : DB) (e u : String) :
    ((requestJoin db e u).2).events = db.events := by
  unfold requestJoin
  cases joinRead db e u with
  | none => rfl
  | some s =>
    unfold joinWrite updateRsvp createRsvp
    simp only []
    split <;> rfl

theorem events_requestLeave (db : DB) (e u : String) :
    ((requestLeave db e u).2).events = db.events := by
  unfold requestLeave updateRsvp
  simp only []
  split <;> rfl

theorem events_rsvpHandler (db : DB) (e u : String) (req : ReqStatus) :
    ((rsvpHandler db e u req).2).events = db.events := by
  cases req with
  | yes => exact events_requestJoin db e u
  | no => exact events_requestLeave db e u

theorem getEvent_rsvpHandler (db : DB) (e u e' : String) (req : ReqStatus) :
    getEvent ((rsvpHandler db e u req).2) e' = getEvent db e' := by
  unfold getEvent
  rw [events_rsvpHandler]

/-- Normal form of the join branch once the event was found. -/
theorem requestJoin_found (db : DB) (e u : String) (ev : Event)
    (hev : getEvent db e = some ev) :
    requestJoin db e u =
      ({ code := 200
         rsvpStatus := some (finalStatus ev.capacity (confirmedCount db.rsvps e))
         message := if finalStatus ev.capacity (confirmedCount db.rsvps e) = RsvpStatus.yes
                    then "RSVP confirmed" else "Added to waitlist" },
       if (getUserRsvp db e u).isSome
       then updateRsvp db e u (finalStatus ev.capacity (confirmedCount db.rsvps e))
       else createRsvp db { eventId := e, userId := u
                            statusEnum := finalStatus ev.capacity (confirmedCount db.rsvps e) }) := by
  unfold requestJoin joinRead joinWrite getEventRsvpCount
  rw [hev]

theorem finalStatus_some (c : Int) (n : Nat) :
    finalStatus (some c) n =
      if c ≠ 0 ∧ c ≤ (n : Int) then RsvpStatus.waitlist else RsvpStatus.yes := rfl

/-! Preservation of the one-row-per-key invariant by the handler. -/

theorem uniqKeys_requestLeave (db : DB) (e u : String)
    (h : uniqKeys db.rsvps = true) :
    uniqKeys ((requestLeave db e u).2).rsvps = true := by
  unfold requestLeave updateRsvp
  simp only []
  split
  · rw [uniqKeys_map_set]
    exact h
  · exact h

theorem uniqKeys_requestJoin (db : DB) (e u : String)
    (h : uniqKeys db.rsvps = true) :
    uniqKeys ((requestJoin db e u).2).rsvps = true := by
  cases hev : getEvent db e with
  | none =>
    unfold requestJoin joinRead
    rw [hev]
    exact h
  | some ev =>
    rw [requestJoin_found db e u ev hev]
    cases hex : getUserRsvp db e u with
    | some r =>
      simp only [hex, Option.isSome_some, if_pos]
      unfold updateRsvp
      rw [uniqKeys_map_set]
      exact h
    | none =>
      simp only [hex, Option.isSome_none, Bool.false_eq_true, if_neg, not_false_iff]
      unfold createRsvp
      exact uniqKeys_append_single db.rsvps _ h
        (fun r2 h2 => keyMatch_false_of_none db e u hex r2 h2)

theorem uniqKeys_rsvpHandler (db : DB) (e u : String) (req : ReqStatus)
    (h : uniqKeys db.rsvps = true) :
    uniqKeys ((rsvpHandler db e u req).2).rsvps = true := by
  cases req with
  | yes => exact uniqKeys_requestJoin db e u h
  | no => exact uniqKeys_requestLeave db e u h

/-! The capacity bound is preserved by every single completed request. -/

theorem confirmed_le_requestLeave (db : DB) (e e' u : String) :
    confirmedCount ((requestLeave db e' u).2).rsvps e ≤ confirmedCount db.rsvps e := by
  unfold requestLeave updateRsvp
  simp only []
  split
  · exact countP_yes_map_set_le db.rsvps e' u e RsvpStatus.cancelled (by decide)
  · exact Nat.le_refl _

theorem confirmed_le_rsvpHandler (db : DB) (e : String) (ev : Event) (C : Int)
    (hev : getEvent db e = some ev) (hcap : ev.capacity = some C) (hpos : 0 < C)
    (huniq : uniqKeys db.rsvps = true)
    (hcnt : (confirmedCount db.rsvps e : Int) ≤ C)
    (e' u : String) (req : ReqStatus) :
    (confirmedCount ((rsvpHandler db e' u req).2).rsvps e : Int) ≤ C := by
  cases req with
  | no =>
    have h1 := confirmed_le_requestLeave db e e' u
    have h2 : (confirmedCount ((requestLeave db e' u).2).rsvps e : Int) ≤
        (confirmedCount db.rsvps e : Int) := by exact_mod_cast h1
    exact le_trans h2 hcnt
  | yes =>
    show (confirmedCount ((requestJoin db e' u).2).rsvps e : Int) ≤ C
    cases hev' : getEvent db e' with
    | none =>
      unfold requestJoin joinRead
      rw [hev']
      exact hcnt
    | some ev' =>
      rw [requestJoin_found db e' u ev' hev']
      by_cases heq : e' = e
      · subst heq
        have hevv : ev' = ev := Option.some.inj (hev' ▸ hev)
        subst hevv
        rw [hcap]
        by_cases hfull : C ≠ 0 ∧ C ≤ (confirmedCount db.rsvps e' : Int)
        · have hfs : finalStatus (some C) (confirmedCount db.rsvps e') = RsvpStatus.waitlist := by
            rw [finalStatus_some, if_pos hfull]
          rw [hfs]
          cases hex : getUserRsvp db e' u with
          | some r =>
            simp only [hex, Option.isSome_some, if_pos]
            unfold updateRsvp confirmedCount
            simp only []
            have := countP_yes_map_set_le db.rsvps e' u e' RsvpStatus.waitlist (by decide)
            have h2 : ((db.rsvps.map (setStatusIf e' u RsvpStatus.waitlist)).countP
                (isYesFor e') : Int) ≤ (db.rsvps.countP (isYesFor e') : Int) := by
              exact_mod_cast this
            exact le_trans h2 hcnt
          | none =>
            simp only [hex, Option.isSome_none, Bool.false_eq_true, if_neg, not_false_iff]
            unfold createRsvp confirmedCount
            simp only []
            rw [countP_append_single]
            have hrow : isYesFor e'
                { eventId := e', userId := u, statusEnum := RsvpStatus.waitlist } = false := by
              simp [isYesFor]
            rw [hrow]
            simpa using hcnt
        · have hfs : finalStatus (some C) (confirmedCount db.rsvps e') = RsvpStatus.yes := by
            rw [finalStatus_some, if_neg hfull]
          have hlt : (confirmedCount db.rsvps e' : Int) + 1 ≤ C := by
            have hC0 : C ≠ 0 := by omega
            have hnle : ¬(C ≤ (confirmedCount db.rsvps e' : Int)) :=
              fun hle => hfull ⟨hC0, hle⟩
            omega
          rw [hfs]
          cases hex : getUserRsvp db e' u with
          | some r =>
            simp only [hex, Option.isSome_some, if_pos]
            unfold updateRsvp confirmedCount
            simp only []
            have hb := countP_yes_map_set_yes_le db.rsvps e' u e'
            have hk := countP_keyMatch_le_one db.rsvps e' u huniq
            have : (db.rsvps.map (setStatusIf e' u RsvpStatus.yes)).countP (isYesFor e') ≤
                db.rsvps.countP (isYesFor e') + 1 := le_trans hb (by omega)
            have h2 : ((db.rsvps.map (setStatusIf e' u RsvpStatus.yes)).countP
                (isYesFor e') : Int) ≤ (db.rsvps.countP (isYesFor e') : Int) + 1 := by
              exact_mod_cast this
            exact le_trans h2 hlt
          | none =>
            simp only [hex, Option.isSome_none, Bool.false_eq_true, if_neg, not_false_iff]
            unfold createRsvp confirmedCount
            simp only []
            rw [countP_append_single]
            have hrow : isYesFor e'
                { eventId := e', userId := u, statusEnum := RsvpStatus.yes } = true := by
              simp [isYesFor]
            rw [hrow]
            have : ((db.rsvps.countP (isYesFor e') + 1 : Nat) : Int) =
                (db.rsvps.countP (isYesFor e') : Int) + 1 := by push_cast; ring
            rw [if_pos rfl, this]
            exact hlt
      · cases hex : getUserRsvp db e' u with
        | some r =>
          simp only [hex, Option.isSome_some, if_pos]
          unfold updateRsvp confirmedCount
          simp only []
          rw [countP_yes_map_set_other db.rsvps e' u e _ heq]
          exact hcnt
        | none =>
          simp only [hex, Option.isSome_none, Bool.false_eq_true, if_neg, not_false_iff]
          unfold createRsvp confirmedCount
          simp only []
          rw [countP_append_single]
          have hne2 : (e' == e) = false := beq_eq_false_iff_ne.mpr heq
          have hrow : ∀ s : RsvpStatus,
              isYesFor e ({ eventId := e', userId := u, statusEnum := s } : Rsvp) = false := by
            intro s
            simp [isYesFor, hne2]
          rw [hrow]
          simpa using hcnt

theorem runOps_cons (db : DB) (op : Op) (ops : List Op) :
    runOps db (op :: ops) = runOps ((rsvpHandler db op.eventId op.userId op.req).2) ops := rfl

/-- The response of a join once the event was found. -/
theorem requestJoin_resp (db : DB) (e u : String) (ev : Event)
    (hev : getEvent db e = some ev) :
    (requestJoin db e u).1 =
      { code := 200
        rsvpStatus := some (finalStatus ev.capacity (confirmedCount db.rsvps e))
        message := if finalStatus ev.capacity (confirmedCount db.rsvps e) = RsvpStatus.yes
                   then "RSVP confirmed" else "Added to waitlist" } := by
  rw [requestJoin_found db e u ev hev]

/-- The stored status of (e, u) after a join equals the computed final status. -/
theorem requestJoin_stored (db : DB) (e u : String) (ev : Event)
    (hev : getEvent db e = some ev) :
    (getUserRsvp (requestJoin db e u).2 e u).map Rsvp.statusEnum =
      some (finalStatus ev.capacity (confirmedCount db.rsvps e)) := by
  rw [requestJoin_found db e u ev hev]
  exact getUserRsvp_after_write db e u _

/-- Cancelling with an existing row leaves that row in place with status
`cancelled`. -/
theorem getUserRsvp_requestLeave_self (db : DB) (e u : String) (r : Rsvp)
    (hr : getUserRsvp db e u = some r) :
    getUserRsvp ((requestLeave db e u).2) e u =
      some { r with statusEnum := RsvpStatus.cancelled } := by
  have hdb1 : (requestLeave db e u).2 = updateRsvp db e u RsvpStatus.cancelled := by
    unfold requestLeave
    rw [hr]
    rfl
  rw [hdb1]
  show (db.rsvps.map (setStatusIf e u RsvpStatus.cancelled)).find? (keyMatch e u) = _
  rw [find?_map_set_self]
  unfold getUserRsvp at hr
  rw [hr]
  rfl

/-! Claim theorems. -/

/-- C1: for every existing event (with capacity null or positive, per the
data model of the spec) and every user, a join confirms exactly when the
capacity is null or the confirmed count is strictly below it, and waitlists
otherwise; the response carries code 200, the matching message, and a status
equal to the stored status. -/
theorem requestJoin_capacity_rule (db : DB) (e u : String) (ev : Event)
    (hev : getEvent db e = some ev)
    (hcap : ev.capacity = none ∨ ∃ c : Int, ev.capacity = some c ∧ 0 < c) :
    ((ev.capacity = none ∨
        ∃ c : Int, ev.capacity = some c ∧ (confirmedCount db.rsvps e : Int) < c) →
      (requestJoin db e u).1 =
        { code := 200, rsvpStatus := some RsvpStatus.yes, message := "RSVP confirmed" }
      ∧ (getUserRsvp (requestJoin db e u).2 e u).map Rsvp.statusEnum = some RsvpStatus.yes)
    ∧ ((∃ c : Int, ev.capacity = some c ∧ c ≤ (confirmedCount db.rsvps e : Int)) →
      (requestJoin db e u).1 =
        { code := 200, rsvpStatus := some RsvpStatus.waitlist, message := "Added to waitlist" }
      ∧ (getUserRsvp (requestJoin db e u).2 e u).map Rsvp.statusEnum =
          some RsvpStatus.waitlist) := by
  constructor
  · intro havail
    have hfs : finalStatus ev.capacity (confirmedCount db.rsvps e) = RsvpStatus.yes := by
      rcases havail with hnone | ⟨c, hc, hlt⟩
      · rw [hnone]
        rfl
      · rw [hc, finalStatus_some, if_neg]
        rintro ⟨_, hle⟩
        omega
    constructor
    · rw [requestJoin_resp db e u ev hev, hfs, if_pos rfl]
    · rw [requestJoin_stored db e u ev hev, hfs]
  · rintro ⟨c, hc, hge⟩
    have hpos : 0 < c := by
      rcases hcap with hnone | ⟨c', hc', hp⟩
      · rw [hnone] at hc
        cases hc
      · have : c' = c := by
          have h := hc'.symm.trans hc
          exact Option.some.inj h
        omega
    have hfs : finalStatus ev.capacity (confirmedCount db.rsvps e) = RsvpStatus.waitlist := by
      rw [hc, finalStatus_some, if_pos ⟨by omega, hge⟩]
    constructor
    · rw [requestJoin_resp db e u ev hev, hfs, if_neg (by decide)]
    · rw [requestJoin_stored db e u ev hev, hfs]

/-- C1 witness: on the capacity-1 event user a confirms, a second distinct
user b is waitlisted, and the confirmed count stays 1. -/
theorem requestJoin_capacity_rule_witness :
    (requestJoin dbCap1 "e" "a").1 =
      { code := 200, rsvpStatus := some RsvpStatus.yes, message := "RSVP confirmed" }
    ∧ (requestJoin ((requestJoin dbCap1 "e" "a").2) "e" "b").1 =
      { code := 200, rsvpStatus := some RsvpStatus.waitlist, message := "Added to waitlist" }
    ∧ confirmedCount ((requestJoin ((requestJoin dbCap1 "e" "a").2) "e" "b").2).rsvps "e" = 1 := by
  refine ⟨?_, ?_, by decide⟩
  · exact ((requestJoin_capacity_rule dbCap1 "e" "a" evCap1 (by decide)
      (Or.inr ⟨1, rfl, by decide⟩)).1 (Or.inr ⟨1, rfl, by decide⟩)).1
  · exact ((requestJoin_capacity_rule ((requestJoin dbCap1 "e" "a").2) "e" "b" evCap1
      (by decide) (Or.inr ⟨1, rfl, by decide⟩)).2 ⟨1, rfl, by decide⟩).1

/-- C2: for an event with positive capacity C, if the state has at most one
RSVP row per (event, user) pair and at most C confirmed rows, then after any
finite sequence of sequentially completed join and leave requests the
confirmed count is still at most C. -/
theorem rsvp_capacity_invariant (db : DB) (e : String) (ev : Event) (C : Int) (ops : List Op)
    (hev : getEvent db e = some ev) (hcap : ev.capacity = some C) (hpos : 0 < C)
    (huniq : uniqKeys db.rsvps = true)
    (hcnt : (confirmedCount db.rsvps e : Int) ≤ C) :
    (confirmedCount (runOps db ops).rsvps e : Int) ≤ C := by
  induction ops generalizing db with
  | nil => exact hcnt
  | cons op ops ih =>
    rw [runOps_cons]
    exact ih ((rsvpHandler db op.eventId op.userId op.req).2)
      (by rw [getEvent_rsvpHandler]; exact hev)
      (uniqKeys_rsvpHandler db op.eventId op.userId op.req huniq)
      (confirmed_le_rsvpHandler db e ev C hev hcap hpos huniq hcnt op.eventId op.userId op.req)

/-- C2 witness: three joins and a leave against the capacity-2 event keep
the confirmed count at most 2. -/
theorem rsvp_capacity_invariant_witness :
    (confirmedCount (runOps dbCap2 opsW2).rsvps "e2" : Int) ≤ 2 :=
  rsvp_capacity_invariant dbCap2 "e2" evCap2 2 opsW2 (by decide) rfl (by decide)
    (by decide) (by decide)

/-- C3 counterexample: user a is confirmed on the full capacity-1 event, yet
joining again returns `waitlist` and demotes the stored status to `waitlist`,
so a repeated join when already `yes` does not yield `yes` at full capacity. -/
theorem rejoin_at_capacity_demotes :
    (getUserRsvp dbFullA "e" "a").map Rsvp.statusEnum = some RsvpStatus.yes
    ∧ (requestJoin dbFullA "e" "a").1.rsvpStatus = some RsvpStatus.waitlist
    ∧ (getUserRsvp (requestJoin dbFullA "e" "a").2 "e" "a").map Rsvp.statusEnum =
        some RsvpStatus.waitlist := by decide

/-- C3 amended: a join by a user who already holds a `yes` row never creates
a second row; it returns and stores `yes` when the event is not at full
capacity (capacity null or zero, or confirmed strictly below it), but at full
capacity it returns and stores `waitlist`, demoting the user. -/
theorem requestJoin_rejoin_updates_in_place (db : DB) (e u : String) (ev : Event) (r : Rsvp)
    (hev : getEvent db e = some ev) (hr : getUserRsvp db e u = some r)
    (hyes : r.statusEnum = RsvpStatus.yes) :
    ((requestJoin db e u).2).rsvps.length = db.rsvps.length
    ∧ ((ev.capacity = none ∨ ∃ c : Int, ev.capacity = some c ∧
          (c = 0 ∨ (confirmedCount db.rsvps e : Int) < c)) →
        (requestJoin db e u).1.rsvpStatus = some RsvpStatus.yes
        ∧ (getUserRsvp (requestJoin db e u).2 e u).map Rsvp.statusEnum = some RsvpStatus.yes)
    ∧ ((∃ c : Int, ev.capacity = some c ∧ c ≠ 0 ∧ c ≤ (confirmedCount db.rsvps e : Int)) →
        (requestJoin db e u).1.rsvpStatus = some RsvpStatus.waitlist
        ∧ (getUserRsvp (requestJoin db e u).2 e u).map Rsvp.statusEnum =
            some RsvpStatus.waitlist) := by
  refine ⟨?_, ?_, ?_⟩
  · rw [requestJoin_found db e u ev hev]
    simp only [hr, Option.isSome_some, if_pos]
    unfold updateRsvp
    simp only []
    exact List.length_map _ _
  · intro havail
    have hfs : finalStatus ev.capacity (confirmedCount db.rsvps e) = RsvpStatus.yes := by
      rcases havail with hnone | ⟨c, hc, hcase⟩
      · rw [hnone]
        rfl
      · rw [hc, finalStatus_some, if_neg]
        rintro ⟨hc0, hle⟩
        rcases hcase with h0 | hlt
        · exact hc0 h0
        · omega
    constructor
    · rw [requestJoin_resp db e u ev hev, hfs]
    · rw [requestJoin_stored db e u ev hev, hfs]
  · rintro ⟨c, hc, hc0, hge⟩
    have hfs : finalStatus ev.capacity (confirmedCount db.rsvps e) = RsvpStatus.waitlist := by
      rw [hc, finalStatus_some, if_pos ⟨hc0, hge⟩]
    constructor
    · rw [requestJoin_resp db e u ev hev, hfs]
    · rw [requestJoin_stored db e u ev hev, hfs]

/-- C3 amended witness: the re-join of the already confirmed user a on the
full capacity-1 event keeps a single row and stores `waitlist`. -/
theorem requestJoin_rejoin_updates_in_place_witness :
    ((requestJoin dbFullA "e" "a").2).rsvps.length = dbFullA.rsvps.length
    ∧ (requestJoin dbFullA "e" "a").1.rsvpStatus = some RsvpStatus.waitlist
    ∧ (getUserRsvp (requestJoin dbFullA "e" "a").2 "e" "a").map Rsvp.statusEnum =
        some RsvpStatus.waitlist := by
  obtain ⟨h1, _, h3⟩ := requestJoin_rejoin_updates_in_place dbFullA "e" "a" evCap1 rowYesA
    (by decide) (by decide) rfl
  have h := h3 ⟨1, rfl, by decide, by decide⟩
  exact ⟨h1, h.1, h.2⟩

/-- C4 counterexample: an interleaving in which ten concurrent joins on the
empty capacity-1 event all read the count before any writes ends with ten
confirmed rows and an empty waitlist, not one confirmed and nine waitlisted. -/
theorem concurrent_joins_overshoot :
    getEventRsvpCount (allReadsThenWrites dbCap1 "e" tenUsers) "e" =
      { confirmed := 10, waitlist := 0 }
    ∧ evCap1.capacity = some 1
    ∧ getEvent dbCap1 "e" = some evCap1 := by decide

/-- C4 amended: the no-overshoot outcome holds only for sequential
execution: ten joins from distinct users run one after another on the empty
capacity-1 event end with exactly one confirmed and nine waitlisted rows;
under concurrent interleaving of the read and write phases the confirmed
count can exceed capacity. -/
theorem sequential_joins_no_overshoot :
    getEventRsvpCount (runOps dbCap1 seqTenJoins) "e" = { confirmed := 1, waitlist := 9 }
    ∧ (runOps dbCap1 seqTenJoins).rsvps.length = 10 := by decide

/-- C5: a leave by user u changes no other user: for every event id and
every user v distinct from u, the RSVP row found for v is exactly the one
found before the leave; in particular no waitlisted user is promoted. -/
theorem requestLeave_frame (db : DB) (e u v e' : String) (hvu : v ≠ u) :
    getUserRsvp ((requestLeave db e u).2) e' v = getUserRsvp db e' v := by
  unfold requestLeave updateRsvp getUserRsvp
  simp only []
  split
  · exact find?_map_set_frame db.rsvps e u e' v RsvpStatus.cancelled hvu
  · rfl

/-- C5 witness: when the confirmed user a cancels on the full capacity-1
event, the waitlisted user b keeps the very same row and stays `waitlist`
while the row of a becomes `cancelled`. -/
theorem requestLeave_frame_witness :
    getUserRsvp ((requestLeave dbFullAB "e" "a").2) "e" "b" = getUserRsvp dbFullAB "e" "b"
    ∧ (getUserRsvp ((requestLeave dbFullAB "e" "a").2) "e" "b").map Rsvp.statusEnum =
        some RsvpStatus.waitlist
    ∧ (getUserRsvp ((requestLeave dbFullAB "e" "a").2) "e" "a").map Rsvp.statusEnum =
        some RsvpStatus.cancelled :=
  ⟨requestLeave_frame dbFullAB "e" "a" "b" "e" (by decide), by decide, by decide⟩

/-- C6 counterexample: the event is stored with status `cancelled`, yet a
join answers 200 with status `yes` and records an RSVP row, instead of
failing with a client error and recording nothing. -/
theorem join_cancelled_event_recorded :
    evCancelled.statusEnum = EventStatus.cancelled
    ∧ (requestJoin dbCancelled "e" "a").1 =
        { code := 200, rsvpStatus := some RsvpStatus.yes, message := "RSVP confirmed" }
    ∧ ((requestJoin dbCancelled "e" "a").2).rsvps.length = 1
    ∧ (getUserRsvp (requestJoin dbCancelled "e" "a").2 "e" "a").map Rsvp.statusEnum =
        some RsvpStatus.yes := by decide

/-- C6 amended: the join branch never inspects the event status column: for
a stored event with status `cancelled` the request succeeds with code 200
and records the RSVP exactly as for an active event; only a missing event
row is rejected (with 404). -/
theorem requestJoin_ignores_event_status (db : DB) (e u : String) (ev : Event)
    (hev : getEvent db e = some ev) (hcanc : ev.statusEnum = EventStatus.cancelled) :
    (requestJoin db e u).1.code = 200
    ∧ (requestJoin db e u).1.rsvpStatus =
        some (finalStatus ev.capacity (confirmedCount db.rsvps e))
    ∧ (getUserRsvp (requestJoin db e u).2 e u).map Rsvp.statusEnum =
        some (finalStatus ev.capacity (confirmedCount db.rsvps e)) := by
  refine ⟨?_, ?_, requestJoin_stored db e u ev hev⟩
  · rw [requestJoin_resp db e u ev hev]
  · rw [requestJoin_resp db e u ev hev]

/-- C6 amended witness: joining the stored cancelled event succeeds and
records the RSVP. -/
theorem requestJoin_ignores_event_status_witness :
    (requestJoin dbCancelled "e" "a").1.code = 200
    ∧ (requestJoin dbCancelled "e" "a").1.rsvpStatus =
        some (finalStatus evCancelled.capacity (confirmedCount dbCancelled.rsvps "e"))
    ∧ (getUserRsvp (requestJoin dbCancelled "e" "a").2 "e" "a").map Rsvp.statusEnum =
        some (finalStatus evCancelled.capacity (confirmedCount dbCancelled.rsvps "e")) :=
  requestJoin_ignores_event_status dbCancelled "e" "a" evCancelled (by decide) rfl

/-- C7: a leave always answers 200 with the message `"RSVP cancelled"`, and
when no RSVP row exists for (e, u) it leaves the database completely
unchanged: a leave has no precondition and no error path. -/
theorem requestLeave_always_safe (db : DB) (e u : String) :
    (requestLeave db e u).1 =
      { code := 200, rsvpStatus := none, message := "RSVP cancelled" }
    ∧ (getUserRsvp db e u = none → (requestLeave db e u).2 = db) := by
  constructor
  · rfl
  · intro hnone
    unfold requestLeave
    rw [hnone]
    rfl

/-- C7 witness: leaving the empty capacity-1 event without any RSVP row
succeeds and changes nothing. -/
theorem requestLeave_always_safe_witness :
    getUserRsvp dbCap1 "e" "a" = none
    ∧ (requestLeave dbCap1 "e" "a").1 =
        { code := 200, rsvpStatus := none, message := "RSVP cancelled" }
    ∧ (requestLeave dbCap1 "e" "a").2 = dbCap1 :=
  ⟨by decide, (requestLeave_always_safe dbCap1 "e" "a").1,
   (requestLeave_always_safe dbCap1 "e" "a").2 (by decide)⟩

/-- C8: for a user with an existing RSVP row on an event that has room after
the leave (capacity null or zero, or the post-leave confirmed count strictly
below it), a leave followed by a join confirms: the leave marks the row
`cancelled` (so it no longer counts as confirmed), and the join returns and
stores `yes`, updating the same row without creating a new one. -/
theorem leave_then_join_confirms (db : DB) (e u : String) (ev : Event) (r : Rsvp)
    (hev : getEvent db e = some ev) (hr : getUserRsvp db e u = some r)
    (havail : ev.capacity = none ∨ ∃ c : Int, ev.capacity = some c ∧
        (c = 0 ∨ (confirmedCount ((requestLeave db e u).2).rsvps e : Int) < c)) :
    (getUserRsvp ((requestLeave db e u).2) e u).map Rsvp.statusEnum =
        some RsvpStatus.cancelled
    ∧ (requestJoin ((requestLeave db e u).2) e u).1.rsvpStatus = some RsvpStatus.yes
    ∧ (getUserRsvp (requestJoin ((requestLeave db e u).2) e u).2 e u).map Rsvp.statusEnum =
        some RsvpStatus.yes
    ∧ ((requestJoin ((requestLeave db e u).2) e u).2).rsvps.length = db.rsvps.length := by
  have h1 : getUserRsvp ((requestLeave db e u).2) e u =
      some { r with statusEnum := RsvpStatus.cancelled } :=
    getUserRsvp_requestLeave_self db e u r hr
  have hdb1 : (requestLeave db e u).2 = updateRsvp db e u RsvpStatus.cancelled := by
    unfold requestLeave
    rw [hr]
    rfl
  have hev1 : getEvent ((requestLeave db e u).2) e = some ev := by
    unfold getEvent
    rw [events_requestLeave]
    exact hev
  have hfs : finalStatus ev.capacity (confirmedCount ((requestLeave db e u).2).rsvps e) =
      RsvpStatus.yes := by
    rcases havail with hnone | ⟨c, hc, hcase⟩
    · rw [hnone]
      rfl
    · rw [hc, finalStatus_some, if_neg]
      rintro ⟨hc0, hle⟩
      rcases hcase with h0 | hlt
      · exact hc0 h0
      · omega
  refine ⟨by rw [h1]; rfl, ?_, ?_, ?_⟩
  · rw [requestJoin_resp ((requestLeave db e u).2) e u ev hev1, hfs]
  · rw [requestJoin_stored ((requestLeave db e u).2) e u ev hev1, hfs]
  · rw [requestJoin_found ((requestLeave db e u).2) e u ev hev1]
    simp only [h1, Option.isSome_some, if_pos]
    unfold updateRsvp
    simp only []
    rw [List.length_map, hdb1]
    unfold updateRsvp
    simp only []
    exact List.length_map _ _

/-- C8 witness: user a leaves the full capacity-1 event and rejoins; the
cancelled row stops counting, the rejoin confirms, and the row count is
unchanged. -/
theorem leave_then_join_confirms_witness :
    (getUserRsvp ((requestLeave dbFullA "e" "a").2) "e" "a").map Rsvp.statusEnum =
        some RsvpStatus.cancelled
    ∧ (requestJoin ((requestLeave dbFullA "e" "a").2) "e" "a").1.rsvpStatus =
        some RsvpStatus.yes
    ∧ (getUserRsvp (requestJoin ((requestLeave dbFullA "e" "a").2) "e" "a").2
        "e" "a").map Rsvp.statusEnum = some RsvpStatus.yes
    ∧ ((requestJoin ((requestLeave dbFullA "e" "a").2) "e" "a").2).rsvps.length =
        dbFullA.rsvps.length :=
  leave_then_join_confirms dbFullA "e" "a" evCap1 rowYesA (by decide) (by decide)
    (Or.inr ⟨1, rfl, Or.inr (by decide)⟩)

/-- C9: both request kinds keep at most one RSVP row per (event, user) pair;
a leave never removes a row (it flips the existing row to the status value
`cancelled`, leaving the row count unchanged), and a join by a user who
already has a row updates it in place, also leaving the row count unchanged. -/
theorem rsvp_row_invariants (db : DB) (e u : String) (req : ReqStatus)
    (huniq : uniqKeys db.rsvps = true) :
    uniqKeys ((rsvpHandler db e u req).2).rsvps = true
    ∧ ((rsvpHandler db e u ReqStatus.no).2).rsvps.length = db.rsvps.length
    ∧ ((getUserRsvp db e u).isSome = true →
        ((rsvpHandler db e u ReqStatus.yes).2).rsvps.length = db.rsvps.length)
    ∧ (∀ r, getUserRsvp db e u = some r →
        getUserRsvp ((rsvpHandler db e u ReqStatus.no).2) e u =
          some { r with statusEnum := RsvpStatus.cancelled }) := by
  refine ⟨uniqKeys_rsvpHandler db e u req huniq, ?_, ?_, ?_⟩
  · show ((requestLeave db e u).2).rsvps.length = db.rsvps.length
    unfold requestLeave updateRsvp
    simp only []
    split
    · exact List.length_map _ _
    · rfl
  · intro hex
    obtain ⟨r, hr⟩ := Option.isSome_iff_exists.mp hex
    show ((requestJoin db e u).2).rsvps.length = db.rsvps.length
    cases hev : getEvent db e with
    | none =>
      unfold requestJoin joinRead
      rw [hev]
    | some ev =>
      rw [requestJoin_found db e u ev hev]
      simp only [hr, Option.isSome_some, if_pos]
      unfold updateRsvp
      simp only []
      exact List.length_map _ _
  · intro r hr
    exact getUserRsvp_requestLeave_self db e u r hr

/-- C9 witness: on the full capacity-1 event a leave by the confirmed user a
keeps uniqueness, keeps the row count, and flips the row of a to `cancelled`;
a join with an existing row would also keep the row count. -/
theorem rsvp_row_invariants_witness :
    uniqKeys ((rsvpHandler dbFullA "e" "a" ReqStatus.no).2).rsvps = true
    ∧ ((rsvpHandler dbFullA "e" "a" ReqStatus.no).2).rsvps.length = dbFullA.rsvps.length
    ∧ ((rsvpHandler dbFullA "e" "a" ReqStatus.yes).2).rsvps.length = dbFullA.rsvps.length
    ∧ getUserRsvp ((rsvpHandler dbFullA "e" "a" ReqStatus.no).2) "e" "a" =
        some { rowYesA with statusEnum := RsvpStatus.cancelled } := by
  obtain ⟨h1, h2, h3, h4⟩ := rsvp_row_invariants dbFullA "e" "a" ReqStatus.no (by decide)
  exact ⟨h1, h2, h3 (by decide), h4 rowYesA (by decide)⟩

/-- C10: an event whose capacity column holds 0 behaves as unlimited, not as
always full: every join returns and stores `yes` no matter how many confirmed
RSVPs exist, because the falsy-capacity guard treats 0 like null; indeed the
final status under capacity 0 coincides with the one under null capacity for
every confirmed count. -/
theorem capacity_zero_unlimited (db : DB) (e u : String) (ev : Event)
    (hev : getEvent db e = some ev) (hcap : ev.capacity = some 0) :
    (requestJoin db e u).1 =
      { code := 200, rsvpStatus := some RsvpStatus.yes, message := "RSVP confirmed" }
    ∧ (getUserRsvp (requestJoin db e u).2 e u).map Rsvp.statusEnum = some RsvpStatus.yes
    ∧ ∀ n : Nat, finalStatus (some 0) n = finalStatus none n := by
  have hfs : finalStatus ev.capacity (confirmedCount db.rsvps e) = RsvpStatus.yes := by
    rw [hcap, finalStatus_some, if_neg]
    rintro ⟨h0, _⟩
    exact h0 rfl
  refine ⟨?_, ?_, ?_⟩
  · rw [requestJoin_resp db e u ev hev, hfs, if_pos rfl]
  · rw [requestJoin_stored db e u ev hev, hfs]
  · intro n
    rw [finalStatus_some, if_neg]
    · rfl
    · rintro ⟨h0, _⟩
      exact h0 rfl

/-- C10 witness: the capacity-0 event already holding two confirmed RSVPs
still confirms a third user. -/
theorem capacity_zero_unlimited_witness :
    (requestJoin dbZero "e" "a").1 =
      { code := 200, rsvpStatus := some RsvpStatus.yes, message := "RSVP confirmed" }
    ∧ (getUserRsvp (requestJoin dbZero "e" "a").2 "e" "a").map Rsvp.statusEnum =
        some RsvpStatus.yes
    ∧ ∀ n : Nat, finalStatus (some 0) n = finalStatus none n :=
  capacity_zero_unlimited dbZero "e" "a" evZero (by decide) rfl

end Pulse
